import Mathlib

/-!
Verification development for `archiver.py`: a shallow embedding of the
configuration reader (`read_archive_file`), the option builder
(`build_opts` / `apply_manual_args`), the combined match filter
(`make_combined_filter`) and the exit-code dispatch of `main`, together
with theorems settling the specification claims.

Modelling conventions:
* A file on disk is `Option (List String)`: `none` means the file does not
  exist, `some lines` gives its lines (without trailing newlines).
* Python exceptions become `Except` values; the external `yt_dlp` engine is
  an opaque function returning `Except PyExc Unit`.
* The `re` regular-expression engine is abstracted by a search function
  `String → String → Bool` (pattern, text); compiled patterns are
  represented by the pattern string they close over.
* Python numeric durations and sleep intervals are modelled as `Int`.
-/

/-! ### Python string primitives

Core `String.trim` / `toLower` / `startsWith` do not reduce in the kernel
(they run on byte positions), so the same operations are defined here on
character lists. -/

/-- The whitespace characters stripped by Python `str.strip()`
(ASCII subset). -/
def pyWsChar (c : Char) : Bool :=
  c = ' ' || c = '\t' || c = '\n' || c = '\r' || c = '\x0b' || c = '\x0c'

/-- Python `s.strip()`. -/
def pyStrip (s : String) : String :=
  String.mk (((s.toList.dropWhile pyWsChar).reverse.dropWhile pyWsChar).reverse)

/-- Python `s.lower()` (ASCII case mapping). -/
def pyLower (s : String) : String :=
  String.mk (s.toList.map Char.toLower)

/-- Python `s.startswith(pre)`. -/
def pyStartsWith (s pre : String) : Bool :=
  pre.toList.isPrefixOf s.toList

/-! ### Candidate items and the combined match filter (`make_combined_filter`) -/

/-- An item info dict as seen by the match filter: the three keys the
filter reads.  `duration := none` models an absent or `None` duration. -/
structure Info where
  duration : Option Int
  webpage_url : String
  title : String
deriving DecidableEq

/-- Python substring test `needle in hay` on character lists. -/
def containsSub (needle : List Char) : List Char → Bool
  | [] => needle.isEmpty
  | c :: t => needle.isPrefixOf (c :: t) || containsSub needle t

/-- The first guard of the filter, `info.get("duration") and info["duration"] < 60`:
the duration is present, truthy (non-zero) and below 60. -/
def durationShort (i : Info) : Bool :=
  match i.duration with
  | some d => d != 0 && decide (d < 60)
  | none => false

/-- `make_combined_filter(title_regex)` from the source, with the `re` engine
abstracted as `search`.  Returns `none` to allow an item and a human-readable
reason string to skip it. -/
def make_combined_filter (search : String → String → Bool)
    (title_regex : Option String) (info : Info) : Option String :=
  if durationShort info then some "short video (<60s)"
  else if containsSub "/shorts/".toList info.webpage_url.toList then
    some "YouTube Shorts URL"
  else
    match title_regex with
    | some pat => if search pat info.title then none
                  else some ("title doesn\x27t match " ++ pat)
    | none => none

/-! ### Options mapping and defaults (`build_opts`) -/

/-- One entry of the `postprocessors` list.  The Python dicts are
heterogeneous; absent keys are `none` / `false`.  `whenKey` models the
`"when"` key. -/
structure Postprocessor where
  key : String
  preferredcodec : Option String := none
  preferredquality : Option String := none
  add_metadata : Option Bool := none
  whenKey : String
deriving DecidableEq

/-- The options dict handed to the engine.  `match_filter` stores the
title pattern captured by the `make_combined_filter` closure placed in the
dict (`none` for the default filter built from `None`).  `reject_title`
and `verbose` model keys that are absent from the default dict. -/
structure Opts where
  format : String
  min_sleep_interval : Int
  max_sleep_interval : Int
  nooverwrites : Bool
  continuedl : Bool
  download_archive : String
  cookiefile : String
  outtmpl : String
  prefer_ffmpeg : Bool
  match_filter : Option String
  postprocessors : List Postprocessor
  reject_title : Option String := none
  verbose : Bool := false
deriving DecidableEq

/-- The hard-coded default options dict built at the top of `build_opts`. -/
def default_opts : Opts where
  format := "bestaudio/best"
  min_sleep_interval := 10
  max_sleep_interval := 60
  nooverwrites := true
  continuedl := true
  download_archive := "downloaded.txt"
  cookiefile := "youtube.com_cookies.txt"
  outtmpl := "%(title)s [%(id)s].%(ext)s"
  prefer_ffmpeg := true
  match_filter := none
  postprocessors :=
    [ { key := "FFmpegExtractAudio"
        preferredcodec := some "flac"
        preferredquality := some "0"
        whenKey := "post_process" },
      { key := "FFmpegMetadata"
        add_metadata := some true
        whenKey := "post_process" } ]

/-! ### Python `int()` on strings -/

/-- Digit run of a Python decimal integer literal after the first digit:
single underscores are allowed only between digits. -/
def pyDigitsCore : Nat → List Char → Option Nat
  | acc, [] => some acc
  | acc, '_' :: c :: cs =>
      if c.isDigit then pyDigitsCore (acc * 10 + (c.toNat - 48)) cs else none
  | _, ['_'] => none
  | acc, c :: cs =>
      if c.isDigit then pyDigitsCore (acc * 10 + (c.toNat - 48)) cs else none

/-- A non-empty digit run (underscores between digits allowed). -/
def pyDigits : List Char → Option Nat
  | [] => none
  | c :: cs => if c.isDigit then pyDigitsCore (c.toNat - 48) cs else none

/-- Python `int(s)` on decimal strings: surrounding whitespace stripped,
optional sign, at least one digit.  Returns `none` where `int` raises
`ValueError`. -/
def pyInt (s : String) : Option Int :=
  match (pyStrip s).toList with
  | '+' :: cs => (pyDigits cs).map Int.ofNat
  | '-' :: cs => (pyDigits cs).map (fun n => -(n : Int))
  | cs => (pyDigits cs).map Int.ofNat

/-! ### The whitelist flag parser (`apply_manual_args`) -/

/-- The message of Python `ValueError` raised by `int()` on a bad literal. -/
def intErrMsg (s : String) : String :=
  "invalid literal for int() with base 10: \x27" ++ s ++ "\x27"

/-- The warning printed by the `except` clause of the argument loop. -/
def warnMsg (arg e : String) : String :=
  "⚠️  Ignoring malformed argument \x27" ++ arg ++ "\x27: " ++ e

/-- `opts["postprocessors"][0]["preferredcodec"] = c`: fails (IndexError)
on an empty list. -/
def setCodec (pps : List Postprocessor) (c : String) :
    Except String (List Postprocessor) :=
  match pps with
  | [] => Except.error "list index out of range"
  | p :: rest => Except.ok ({ p with preferredcodec := some c } :: rest)

/-- The two value-less toggle branches of the loop (`--no-continue`,
`--no-overwrites`); any other lone token falls through unchanged. -/
def singleStep (opts : Opts) (arg : String) : Opts :=
  if arg = "--no-continue" then { opts with continuedl := false }
  else if arg = "--no-overwrites" then { opts with nooverwrites := false }
  else opts

/-- The `while i < len(args)` loop of `apply_manual_args`.  State:
current options, the pending `title_pattern`, and the list of warnings
printed so far.  A branch taking a value consumes two tokens; a failed
value (bad `int`, empty postprocessor list) prints a warning and advances
by one token only, exactly as the Python `except` + trailing `i += 1`. -/
def applyLoop : Opts → Option String → List String → List String →
    Opts × Option String × List String
  | opts, title, warns, [] => (opts, title, warns)
  | opts, title, warns, [arg] => (singleStep opts arg, title, warns)
  | opts, title, warns, arg :: nxt :: rest =>
    if nxt = "" then applyLoop (singleStep opts arg) title warns (nxt :: rest)
    else if arg = "--match-title" then applyLoop opts (some nxt) warns rest
    else if arg = "--reject-title" then
      applyLoop { opts with reject_title := some nxt } title warns rest
    else if arg = "--audio-format" then
      match setCodec opts.postprocessors nxt with
      | Except.ok pps => applyLoop { opts with postprocessors := pps } title warns rest
      | Except.error e =>
          applyLoop opts title (warns ++ [warnMsg arg e]) (nxt :: rest)
    else if arg = "--sleep-interval" then
      match pyInt nxt with
      | some n =>
          applyLoop { opts with min_sleep_interval := n, max_sleep_interval := n }
            title warns rest
      | none =>
          applyLoop opts title (warns ++ [warnMsg arg (intErrMsg nxt)]) (nxt :: rest)
    else applyLoop (singleStep opts arg) title warns (nxt :: rest)

/-- `apply_manual_args(opts, args)`: run the loop, then always rebuild the
combined filter from the collected title pattern.  Also returns the
warnings printed. -/
def apply_manual_args (opts : Opts) (args : List String) : Opts × List String :=
  match applyLoop opts none [] args with
  | (o, title, warns) => ({ o with match_filter := title }, warns)

/-- `build_opts(extra_args, debug)`: defaults, then overrides (only when
`extra_args` is non-empty, Python truthiness of a list), then `verbose`. -/
def build_opts (extra_args : List String) (debug : Bool) : Opts × List String :=
  let base := default_opts
  let merged := if extra_args.isEmpty then (base, []) else apply_manual_args base extra_args
  (if debug then { merged.1 with verbose := true } else merged.1, merged.2)

/-! ### `shlex.split` (posix mode, whitespace split) -/

/-- The single-quote character. -/
def sqC : Char := Char.ofNat 39

/-- The double-quote character. -/
def dqC : Char := Char.ofNat 34

/-- The backslash escape character. -/
def bsC : Char := Char.ofNat 92

/-- `shlex` whitespace. -/
def lexWs (c : Char) : Bool :=
  c = ' ' || c = '\t' || c = '\r' || c = '\n'

/-- Lexer state of `shlex.read_token`: between tokens, inside a word,
inside single/double quotes, or after an escape character (from a word or
from inside double quotes). -/
inductive LexState where
  | ws | word | squote | dquote | escWord | escDquote
deriving DecidableEq

/-- The `shlex.read_token` state machine (posix, `whitespace_split`),
run over the whole input.  Arguments: state, current token, whether the
current token saw a quote, emitted tokens, remaining input. -/
def shlexRun : LexState → List Char → Bool → List String → List Char →
    Except String (List String)
  | st, tok, quoted, acc, [] =>
    match st with
    | LexState.squote => Except.error "No closing quotation"
    | LexState.dquote => Except.error "No closing quotation"
    | LexState.escWord => Except.error "No escaped character"
    | LexState.escDquote => Except.error "No escaped character"
    | _ => if tok.isEmpty && !quoted then Except.ok acc
           else Except.ok (acc ++ [String.mk tok])
  | LexState.ws, tok, quoted, acc, c :: cs =>
    if lexWs c then shlexRun LexState.ws tok quoted acc cs
    else if c = bsC then shlexRun LexState.escWord tok quoted acc cs
    else if c = sqC then shlexRun LexState.squote tok quoted acc cs
    else if c = dqC then shlexRun LexState.dquote tok quoted acc cs
    else shlexRun LexState.word (tok ++ [c]) quoted acc cs
  | LexState.word, tok, quoted, acc, c :: cs =>
    if lexWs c then shlexRun LexState.ws [] false (acc ++ [String.mk tok]) cs
    else if c = bsC then shlexRun LexState.escWord tok quoted acc cs
    else if c = sqC then shlexRun LexState.squote tok quoted acc cs
    else if c = dqC then shlexRun LexState.dquote tok quoted acc cs
    else shlexRun LexState.word (tok ++ [c]) quoted acc cs
  | LexState.squote, tok, _, acc, c :: cs =>
    if c = sqC then shlexRun LexState.word tok true acc cs
    else shlexRun LexState.squote (tok ++ [c]) true acc cs
  | LexState.dquote, tok, _, acc, c :: cs =>
    if c = dqC then shlexRun LexState.word tok true acc cs
    else if c = bsC then shlexRun LexState.escDquote tok true acc cs
    else shlexRun LexState.dquote (tok ++ [c]) true acc cs
  | LexState.escWord, tok, quoted, acc, c :: cs =>
    shlexRun LexState.word (tok ++ [c]) quoted acc cs
  | LexState.escDquote, tok, quoted, acc, c :: cs =>
    if c = bsC || c = dqC then shlexRun LexState.dquote (tok ++ [c]) quoted acc cs
    else shlexRun LexState.dquote (tok ++ [bsC, c]) quoted acc cs

/-- `shlex.split(s)` in posix mode: shell-style tokens, or the
`ValueError` message on malformed quoting. -/
def shlexSplit (s : String) : Except String (List String) :=
  shlexRun LexState.ws [] false [] s.toList

/-! ### The configuration reader (`read_archive_file`) -/

/-- Characters after the first colon, `line.split(":", 1)[1]` (callers
guarantee a colon is present). -/
def afterColonChars : List Char → List Char
  | [] => []
  | ':' :: cs => cs
  | _ :: cs => afterColonChars cs

/-- `line.split(":", 1)[1].strip()`. -/
def lineValue (l : String) : String :=
  pyStrip (String.mk (afterColonChars l.toList))

/-- `line.lower().startswith("url:")` on an already stripped line. -/
def isUrlLine (l : String) : Bool := pyStartsWith (pyLower l) "url:"

/-- `line.lower().startswith("addtl_args:")` on an already stripped line. -/
def isAddtlLine (l : String) : Bool := pyStartsWith (pyLower l) "addtl_args:"

/-- The list comprehension of `read_archive_file`: keep lines whose strip
is non-empty and that do not start (unstripped) with `#`, stripped. -/
def keptLines (rawLines : List String) : List String :=
  (rawLines.filter (fun l => pyStrip l != "" && !(pyStartsWith l "#"))).map pyStrip

/-- Configuration failures of the reader: `FileNotFoundError`, the
missing-`url:` `ValueError`, and the `ValueError` escaping from
`shlex.split` on a malformed `addtl_args:` value. -/
inductive ConfErr where
  | missingFile
  | missingUrl
  | malformedArgs (msg : String)
deriving DecidableEq

/-- The `for line in lines` loop: the last `url:` line overwrites the
`url` variable; every `addtl_args:` line extends `extra_args` (a shlex
failure propagates immediately). -/
def scanLines : Option String → List String → List String →
    Except String (Option String × List String)
  | url, args, [] => Except.ok (url, args)
  | url, args, l :: rest =>
    if isUrlLine l then scanLines (some (lineValue l)) args rest
    else if isAddtlLine l then
      match shlexSplit (lineValue l) with
      | Except.ok toks => scanLines url (args ++ toks) rest
      | Except.error e => Except.error e
    else scanLines url args rest

/-- `read_archive_file`: `none` for a missing file; otherwise scan the
kept lines, then fail with the missing-url error when the final `url`
variable is `None` or empty (Python `if not url`). -/
def read_archive_file (file : Option (List String)) :
    Except ConfErr (String × List String) :=
  match file with
  | none => Except.error ConfErr.missingFile
  | some rawLines =>
    match scanLines none [] (keptLines rawLines) with
    | Except.error e => Except.error (ConfErr.malformedArgs e)
    | Except.ok (url, extra) =>
      match url with
      | none => Except.error ConfErr.missingUrl
      | some u => if u = "" then Except.error ConfErr.missingUrl
                  else Except.ok (u, extra)

/-! ### `main` and its exit-code dispatch -/

/-- Exception classes distinguished by the handlers of `main`.
`otherExc` stands for any `Exception` that is none of the explicitly
handled classes. -/
inductive PyExc where
  | fileNotFound
  | valueError
  | downloadError (msg : String)
  | keyboardInterrupt
  | otherExc (msg : String)
deriving DecidableEq

/-- The exception class each reader failure is raised as. -/
def confErrToExc : ConfErr → PyExc
  | ConfErr.missingFile => PyExc.fileNotFound
  | ConfErr.missingUrl => PyExc.valueError
  | ConfErr.malformedArgs _ => PyExc.valueError

/-- The outer `except` ladder of `main`: `(FileNotFoundError, ValueError)`
exit 1, `KeyboardInterrupt` exit 130, any other `Exception` exit 99. -/
def outerHandler : PyExc → Nat
  | PyExc.fileNotFound => 1
  | PyExc.valueError => 1
  | PyExc.keyboardInterrupt => 130
  | PyExc.downloadError _ => 99
  | PyExc.otherExc _ => 99

/-- `main` (the name `main` is reserved in Lean), with the engine call
abstracted: read the file, build the options, invoke the engine;
`DownloadError` is caught at the call site (exit 2), success exits 0,
everything else reaches the outer ladder. -/
def mainRun (file : Option (List String)) (debug : Bool)
    (engine : String → Opts → Except PyExc Unit) : Nat :=
  match read_archive_file file with
  | Except.error e => outerHandler (confErrToExc e)
  | Except.ok (url, extra) =>
    let opts := (build_opts extra debug).1
    match engine url opts with
    | Except.ok _ => 0
    | Except.error (PyExc.downloadError _) => 2
    | Except.error e => outerHandler e

/-! ### Derived notions used by the theorems -/

/-- Whether an `Except` computation succeeded. -/
def exceptOk {ε α : Type} : Except ε α → Bool
  | Except.ok _ => true
  | Except.error _ => false

/-- Every `addtl_args:` line among the given (kept) lines tokenizes
without a shlex error. -/
def addtlOk (ls : List String) : Bool :=
  ls.all fun l => !(isAddtlLine l) || exceptOk (shlexSplit (lineValue l))

/-- The trimmed value after the first colon of the last `url:` line of a
(kept) line list, if any. -/
def lastUrlVal : List String → Option String
  | [] => none
  | l :: rest =>
    match lastUrlVal rest with
    | some v => some v
    | none => if isUrlLine l then some (lineValue l) else none

/-- First option if present, otherwise the second. -/
def orDefault (a b : Option String) : Option String :=
  match a with
  | some v => some v
  | none => b

/-- Forget the `preferredcodec` field of a postprocessor entry. -/
def eraseCodec (p : Postprocessor) : Postprocessor :=
  { p with preferredcodec := none }

/-! ### C2 -/

/-- C2: `build_opts` on an empty `extra_args` list with debug off returns
exactly the hard-coded default mapping: format `bestaudio/best`, sleep
interval bounds 10/60, `nooverwrites` and `continuedl` true,
`downloaded.txt` archive, `youtube.com_cookies.txt` cookie file, the
output template, `prefer_ffmpeg`, the default match filter, and the
two-stage postprocessor chain with preferred codec `flac`, with no
warnings printed. -/
theorem build_opts_default_exact :
    build_opts [] false =
      ({ format := "bestaudio/best"
         min_sleep_interval := 10
         max_sleep_interval := 60
         nooverwrites := true
         continuedl := true
         download_archive := "downloaded.txt"
         cookiefile := "youtube.com_cookies.txt"
         outtmpl := "%(title)s [%(id)s].%(ext)s"
         prefer_ffmpeg := true
         match_filter := none
         postprocessors :=
           [ { key := "FFmpegExtractAudio"
               preferredcodec := some "flac"
               preferredquality := some "0"
               add_metadata := none
               whenKey := "post_process" },
             { key := "FFmpegMetadata"
               preferredcodec := none
               preferredquality := none
               add_metadata := some true
               whenKey := "post_process" } ]
         reject_title := none
         verbose := false }, []) := rfl

/-! ### C3 -/

/-- C3 counterexample: an item whose duration is 0 seconds — which is
under 60 seconds — is NOT rejected by the combined filter (Python
truthiness of `info.get("duration")` skips the short-video guard for a
zero duration), refuting the claim that any duration under 60 yields a
non-null rejection reason. -/
theorem short_filter_zero_duration_cex :
    make_combined_filter (fun _ _ => true) none
        { duration := some 0, webpage_url := "", title := "" } = none ∧
      (0 : Int) < 60 :=
  ⟨rfl, by decide⟩

/-- C3 (amended): for every search function, title regex and candidate
item whose duration is present, non-zero and under 60 seconds, the
combined filter returns the non-null rejection reason
`short video (<60s)`, regardless of the title or any other field. -/
theorem short_filter_rejects (search : String → String → Bool)
    (regex : Option String) (info : Info) (d : Int)
    (hd : info.duration = some d) (h0 : d ≠ 0) (h60 : d < 60) :
    make_combined_filter search regex info = some "short video (<60s)" := by
  have hs : durationShort info = true := by
    unfold durationShort
    rw [hd]
    simp [h0, h60]
  unfold make_combined_filter
  rw [hs]
  simp

/-- Witness for C3 (amended) at a concrete 30-second item. -/
theorem short_filter_rejects_witness :
    make_combined_filter (fun _ _ => false) (some "pat")
        { duration := some 30, webpage_url := "w", title := "t" } =
      some "short video (<60s)" :=
  short_filter_rejects (fun _ _ => false) (some "pat")
    { duration := some 30, webpage_url := "w", title := "t" } 30
    rfl (by decide) (by decide)

/-! ### C4 -/

/-- C4 counterexample: the unrecognized flag `--bogus` — not in the
whitelist — is processed without printing any warning (the warning list
stays empty), refuting the claim that an unrecognized flag prints a
warning. -/
theorem unrecognized_flag_no_warning_cex :
    (apply_manual_args default_opts ["--bogus"]).2 = [] ∧
      ("--bogus" : String) ∉ ["--match-title", "--reject-title", "--audio-format",
        "--sleep-interval", "--no-continue", "--no-overwrites"] :=
  ⟨rfl, by decide⟩

/-- C4 (amended): an unrecognized token is skipped silently — it changes
no option, adds no warning, and the scan continues with the remaining
tokens; a recognized flag with a malformed value (a non-integer
sleep-interval value) prints a warning, changes no option, and the scan
continues without raising. -/
theorem args_unrecognized_and_malformed (opts : Opts) (title : Option String)
    (warns : List String) :
    (∀ t rest, t ≠ "--match-title" → t ≠ "--reject-title" → t ≠ "--audio-format" →
        t ≠ "--sleep-interval" → t ≠ "--no-continue" → t ≠ "--no-overwrites" →
        applyLoop opts title warns (t :: rest) = applyLoop opts title warns rest) ∧
    (∀ v rest, v ≠ "" → pyInt v = none →
        applyLoop opts title warns ("--sleep-interval" :: v :: rest) =
          applyLoop opts title (warns ++ [warnMsg "--sleep-interval" (intErrMsg v)])
            (v :: rest)) := by
  constructor
  · intro t rest h1 h2 h3 h4 h5 h6
    have hss : singleStep opts t = opts := by simp [singleStep, h5, h6]
    cases rest with
    | nil => simp [applyLoop, hss]
    | cons nxt rest2 =>
      by_cases hn : nxt = ""
      · subst hn; simp [applyLoop, hss]
      · simp [applyLoop, hn, h1, h2, h3, h4, hss]
  · intro v rest hv hpy
    simp [applyLoop, hv, hpy]

/-- Witness for C4 (amended): the unrecognized `--bogus` and the
malformed `--sleep-interval abc` at concrete states. -/
theorem args_unrecognized_and_malformed_witness :
    applyLoop default_opts none [] ["--bogus"] = applyLoop default_opts none [] [] ∧
    applyLoop default_opts none [] ["--sleep-interval", "abc"] =
      applyLoop default_opts none ([] ++ [warnMsg "--sleep-interval" (intErrMsg "abc")])
        ["abc"] :=
  ⟨(args_unrecognized_and_malformed default_opts none []).1 "--bogus" []
      (by decide) (by decide) (by decide) (by decide) (by decide) (by decide),
   (args_unrecognized_and_malformed default_opts none []).2 "abc" [] (by decide) rfl⟩

/-! ### C5 -/

/-- C5 counterexample: the argument list
`["--sleep-interval", "15", "--sleep-interval", "20"]` contains the token
`--sleep-interval` followed by the decimal integer token `15`, yet the
resulting mapping has both sleep intervals equal to 20 (the later
occurrence overwrites), not 15. -/
theorem sleep_interval_later_override_cex :
    (["--sleep-interval", "15", "--sleep-interval", "20"] : List String).take 2 =
        ["--sleep-interval", "15"] ∧
    pyInt "15" = some 15 ∧
    (apply_manual_args default_opts
        ["--sleep-interval", "15", "--sleep-interval", "20"]).1.min_sleep_interval = 20 ∧
    (apply_manual_args default_opts
        ["--sleep-interval", "15", "--sleep-interval", "20"]).1.max_sleep_interval = 20 :=
  ⟨rfl, rfl, rfl, rfl⟩

/-- C5 (amended): whenever the scan reaches `--sleep-interval` followed by
a (non-empty) token parsing as the integer n, it sets both
`min_sleep_interval` and `max_sleep_interval` to n and continues with the
remaining tokens; in particular `--sleep-interval 15` alone yields 15 for
both bounds. -/
theorem sleep_interval_sets_both :
    (∀ (opts : Opts) (title : Option String) (warns : List String)
        (v : String) (n : Int) (rest : List String), v ≠ "" → pyInt v = some n →
        applyLoop opts title warns ("--sleep-interval" :: v :: rest) =
          applyLoop { opts with min_sleep_interval := n, max_sleep_interval := n }
            title warns rest) ∧
    (apply_manual_args default_opts ["--sleep-interval", "15"]).1.min_sleep_interval = 15 ∧
    (apply_manual_args default_opts ["--sleep-interval", "15"]).1.max_sleep_interval = 15 := by
  refine ⟨?_, rfl, rfl⟩
  intro opts title warns v n rest hv hn
  simp [applyLoop, hv, hn]

/-- Witness for C5 (amended) at `--sleep-interval 15`. -/
theorem sleep_interval_sets_both_witness :
    applyLoop default_opts none [] ["--sleep-interval", "15"] =
      applyLoop { default_opts with min_sleep_interval := 15, max_sleep_interval := 15 }
        none [] [] :=
  sleep_interval_sets_both.1 default_opts none [] "15" 15 [] (by decide) rfl

/-! ### C9 -/

/-- Once `nooverwrites` (resp. `continuedl`) has been forced to `false`,
no later token of the loop can set it back to `true`. -/
theorem applyLoop_keeps_false (opts : Opts) (title : Option String)
    (warns : List String) (ls : List String) :
    (opts.nooverwrites = false → (applyLoop opts title warns ls).1.nooverwrites = false) ∧
    (opts.continuedl = false → (applyLoop opts title warns ls).1.continuedl = false) := by
  induction opts, title, warns, ls using applyLoop.induct with
  | case1 opts title warns => exact ⟨fun h => h, fun h => h⟩
  | case2 opts title warns arg =>
    simp only [applyLoop]
    unfold singleStep
    split
    · exact ⟨fun h => h, fun _ => rfl⟩
    · split
      · exact ⟨fun _ => rfl, fun h => h⟩
      · exact ⟨fun h => h, fun h => h⟩
  | case3 opts title warns arg rest ih =>
    simp only [applyLoop, if_pos]
    refine ⟨fun h => ih.1 ?_, fun h => ih.2 ?_⟩ <;>
      · unfold singleStep
        split
        · simpa using h
        · split <;> simpa using h
  | case4 opts title warns nxt rest hn ih =>
    simpa [applyLoop, hn] using ih
  | case5 opts title warns nxt rest hn _ ih =>
    simp only [applyLoop, if_neg (by simpa using hn)]
    simpa using ih
  | case6 opts title warns nxt rest hn pps hpps _ _ ih =>
    simp only [applyLoop, if_neg (by simpa using hn)]
    simp only [reduceIte, hpps]
    simpa using ih
  | case7 opts title warns nxt rest hn e he _ _ ih =>
    simp only [applyLoop, if_neg (by simpa using hn)]
    simp only [reduceIte, he]
    simpa using ih
  | case8 opts title warns nxt rest hn n hint _ _ _ ih =>
    simp only [applyLoop, if_neg (by simpa using hn)]
    simp only [reduceIte, hint]
    simpa using ih
  | case9 opts title warns nxt rest hn hint _ _ _ ih =>
    simp only [applyLoop, if_neg (by simpa using hn)]
    simp only [reduceIte, hint]
    simpa using ih
  | case10 opts title warns arg nxt rest hn h1 h2 h3 h4 ih =>
    simp only [applyLoop, if_neg (by simpa using hn), if_neg h1, if_neg h2, if_neg h3,
      if_neg h4]
    refine ⟨fun h => ih.1 ?_, fun h => ih.2 ?_⟩ <;>
      · unfold singleStep
        split
        · simpa using h
        · split <;> simpa using h

/-- Reaching `--no-overwrites` as the current token always executes the
toggle and advances one token. -/
theorem applyLoop_no_overwrites_step (opts : Opts) (title : Option String)
    (warns : List String) (rest : List String) :
    applyLoop opts title warns ("--no-overwrites" :: rest) =
      applyLoop { opts with nooverwrites := false } title warns rest := by
  have hss : singleStep opts "--no-overwrites" = { opts with nooverwrites := false } := by
    simp [singleStep]
  cases rest with
  | nil => simp [applyLoop, hss]
  | cons nxt rest2 =>
    by_cases hn : nxt = ""
    · subst hn; simp [applyLoop, hss]
    · simp [applyLoop, hn, hss]

/-- Reaching `--no-continue` as the current token always executes the
toggle and advances one token. -/
theorem applyLoop_no_continue_step (opts : Opts) (title : Option String)
    (warns : List String) (rest : List String) :
    applyLoop opts title warns ("--no-continue" :: rest) =
      applyLoop { opts with continuedl := false } title warns rest := by
  have hss : singleStep opts "--no-continue" = { opts with continuedl := false } := by
    simp [singleStep]
  cases rest with
  | nil => simp [applyLoop, hss]
  | cons nxt rest2 =>
    by_cases hn : nxt = ""
    · subst hn; simp [applyLoop, hss]
    · simp [applyLoop, hn, hss]

/-- C9 counterexample: in `["--match-title", "--no-overwrites"]` the token
`--no-overwrites` is present but is consumed as the value of
`--match-title`, so `nooverwrites` stays `true` — refuting the claim for
every argument list containing the token. -/
theorem no_overwrites_consumed_cex :
    (apply_manual_args default_opts ["--match-title", "--no-overwrites"]).1.nooverwrites
        = true ∧
      ("--no-overwrites" : String) ∈ ["--match-title", "--no-overwrites"] :=
  ⟨rfl, by decide⟩

/-- C9 (amended): whenever the scan reaches `--no-overwrites` as the
current flag token (in particular whenever it is not consumed as the value
of a preceding value-taking flag), the final options have
`nooverwrites = false` — the toggle disables the default no-clobber
semantics — regardless of the remaining tokens; likewise `--no-continue`
forces `continuedl = false`. -/
theorem no_overwrites_toggle_disables :
    (∀ (opts : Opts) (title : Option String) (warns : List String) (rest : List String),
        (applyLoop opts title warns ("--no-overwrites" :: rest)).1.nooverwrites = false) ∧
    (∀ (opts : Opts) (title : Option String) (warns : List String) (rest : List String),
        (applyLoop opts title warns ("--no-continue" :: rest)).1.continuedl = false) ∧
    (apply_manual_args default_opts ["--no-overwrites"]).1.nooverwrites = false ∧
    (apply_manual_args default_opts ["--no-continue"]).1.continuedl = false := by
  refine ⟨?_, ?_, rfl, rfl⟩
  · intro opts title warns rest
    rw [applyLoop_no_overwrites_step]
    exact (applyLoop_keeps_false _ title warns rest).1 rfl
  · intro opts title warns rest
    rw [applyLoop_no_continue_step]
    exact (applyLoop_keeps_false _ title warns rest).2 rfl

/-! ### The scan of the configuration lines -/

/-- When every `addtl_args:` line tokenizes, the scan succeeds and its
final `url` variable is the value of the last `url:` line (or the initial
value when there is none). -/
theorem scanLines_spec (ls : List String) :
    ∀ (url0 : Option String) (args0 : List String), addtlOk ls = true →
      ∃ args, scanLines url0 args0 ls =
        Except.ok (orDefault (lastUrlVal ls) url0, args) := by
  induction ls with
  | nil => intro url0 args0 _; exact ⟨args0, rfl⟩
  | cons l rest ih =>
    intro url0 args0 h
    rw [addtlOk, List.all_cons, Bool.and_eq_true] at h
    obtain ⟨hl, hrest⟩ := h
    by_cases hu : isUrlLine l
    · obtain ⟨args, ha⟩ := ih (some (lineValue l)) args0 hrest
      refine ⟨args, ?_⟩
      simp only [scanLines, hu, if_true]
      rw [ha]
      cases hlast : lastUrlVal rest <;>
        simp [lastUrlVal, orDefault, hlast, hu]
    · by_cases hal : isAddtlLine l
      · rw [hal] at hl
        cases hsh : shlexSplit (lineValue l) with
        | error e => rw [hsh] at hl; simp [exceptOk] at hl
        | ok toks =>
          obtain ⟨args, ha⟩ := ih url0 (args0 ++ toks) hrest
          refine ⟨args, ?_⟩
          simp only [scanLines, hu, if_false, hal, if_true, hsh]
          rw [ha]
          cases hlast : lastUrlVal rest <;>
            simp [lastUrlVal, orDefault, hlast, hu]
      · obtain ⟨args, ha⟩ := ih url0 args0 hrest
        refine ⟨args, ?_⟩
        simp only [scanLines, hu, if_false, hal]
        rw [ha]
        cases hlast : lastUrlVal rest <;>
          simp [lastUrlVal, orDefault, hlast, hu]

/-- A line list with no `url:` line has no last `url:` value. -/
theorem lastUrlVal_none (ls : List String)
    (h : ls.all (fun l => !(isUrlLine l)) = true) : lastUrlVal ls = none := by
  induction ls with
  | nil => rfl
  | cons l rest ih =>
    rw [List.all_cons, Bool.and_eq_true] at h
    have hl : isUrlLine l = false := by simpa using h.1
    simp [lastUrlVal, ih h.2, hl]

/-! ### C6 -/

/-- C6 counterexample: a file whose only line is `addtl_args: '` has no
`url:` line, yet `read_archive_file` raises the shlex `ValueError`
(`No closing quotation`) from the malformed `addtl_args:` value instead of
the missing-url error — it does not scan the whole file. -/
theorem missing_url_malformed_args_cex :
    read_archive_file (some ["addtl_args: \x27"]) =
        Except.error (ConfErr.malformedArgs "No closing quotation") ∧
      (keptLines ["addtl_args: \x27"]).all (fun l => !(isUrlLine l)) = true :=
  ⟨rfl, by decide⟩

/-- C6 (amended): for every configuration file whose kept (non-blank,
non-comment) lines contain no line whose lowercased form starts with
`url:`, and whose `addtl_args:` lines all tokenize without a shlex error,
`read_archive_file` fails with the missing-url configuration error after
scanning the whole file, regardless of the other content; and a missing
file fails with the missing-file error. -/
theorem missing_url_error_spec :
    (∀ lines : List String, addtlOk (keptLines lines) = true →
        (keptLines lines).all (fun l => !(isUrlLine l)) = true →
        read_archive_file (some lines) = Except.error ConfErr.missingUrl) ∧
    read_archive_file none = Except.error ConfErr.missingFile := by
  refine ⟨?_, rfl⟩
  intro lines h1 h2
  obtain ⟨args, ha⟩ := scanLines_spec (keptLines lines) none [] h1
  rw [lastUrlVal_none _ h2] at ha
  simp only [read_archive_file, ha, orDefault]

/-- Witness for C6 (amended): a file with a comment and a well-formed
`addtl_args:` line but no `url:` line. -/
theorem missing_url_error_spec_witness :
    read_archive_file (some ["# only a comment", "addtl_args: -x"]) =
      Except.error ConfErr.missingUrl :=
  missing_url_error_spec.1 ["# only a comment", "addtl_args: -x"]
    (by decide) (by decide)

/-! ### C7 -/

/-- C7 counterexample: the file `["url: x", "url:"]` contains a `url:`
line with the non-empty value `x`, yet `read_archive_file` raises the
missing-url error instead of returning a URL: the later empty `url:` line
overwrites the earlier non-empty one and the empty result fails the
`if not url` check. -/
theorem url_overwritten_empty_cex :
    read_archive_file (some ["url: x", "url:"]) = Except.error ConfErr.missingUrl ∧
      isUrlLine "url: x" = true ∧ lineValue "url: x" = "x" ∧ ("x" : String) ≠ "" :=
  ⟨rfl, rfl, rfl, by decide⟩

/-- C7 (amended): for every configuration file whose `addtl_args:` lines
all tokenize and whose LAST case-insensitive `url:` line has a non-empty
value after the first colon (whitespace trimmed), `read_archive_file`
returns exactly that trimmed value — a later `url:` line overwrites an
earlier one, and an empty last value instead triggers the missing-url
error. -/
theorem last_url_returned (lines : List String) (u : String)
    (h1 : addtlOk (keptLines lines) = true)
    (h2 : lastUrlVal (keptLines lines) = some u) (h3 : u ≠ "") :
    ∃ args, read_archive_file (some lines) = Except.ok (u, args) := by
  obtain ⟨args, ha⟩ := scanLines_spec (keptLines lines) none [] h1
  rw [h2] at ha
  exact ⟨args, by simp only [read_archive_file, ha, orDefault, if_neg h3]⟩

/-- Witness for C7 (amended): the later `URL:` line (case-insensitive,
whitespace around the value) overwrites the earlier one. -/
theorem last_url_returned_witness :
    ∃ args, read_archive_file (some ["url: a", "URL:  b "]) = Except.ok ("b", args) :=
  last_url_returned ["url: a", "URL:  b "] "b" (by decide) (by decide) (by decide)

/-! ### C10 -/

/-- C10 counterexample: the file `["url:", "addtl_args: '"]` contains a
`url:` line with an empty value and no later non-empty `url:` line, yet
`read_archive_file` raises the shlex `ValueError` from the malformed
`addtl_args:` line, not the missing-url error. -/
theorem empty_url_malformed_args_cex :
    read_archive_file (some ["url:", "addtl_args: \x27"]) =
        Except.error (ConfErr.malformedArgs "No closing quotation") ∧
      lastUrlVal (keptLines ["url:", "addtl_args: \x27"]) = some "" :=
  ⟨rfl, by decide⟩

/-- C10 (amended): for every configuration file whose `addtl_args:` lines
all tokenize and whose effective (last) `url:` value is empty after
trimming, `read_archive_file` raises the same missing-url error as when
the `url:` line is absent; and `read_archive_file` never returns an empty
URL, so an empty URL never reaches engine invocation. -/
theorem empty_last_url_missing_url :
    (∀ lines : List String, addtlOk (keptLines lines) = true →
        lastUrlVal (keptLines lines) = some "" →
        read_archive_file (some lines) = Except.error ConfErr.missingUrl) ∧
    (∀ (lines : List String) (u : String) (args : List String),
        read_archive_file (some lines) = Except.ok (u, args) → u ≠ "") := by
  constructor
  · intro lines h1 h2
    obtain ⟨args, ha⟩ := scanLines_spec (keptLines lines) none [] h1
    rw [h2] at ha
    simp [read_archive_file, ha, orDefault]
  · intro lines u args h
    simp only [read_archive_file] at h
    cases hs : scanLines none [] (keptLines lines) with
    | error e => rw [hs] at h; cases h
    | ok p =>
      rw [hs] at h
      obtain ⟨url, extra⟩ := p
      cases url with
      | none => simp at h
      | some v =>
        by_cases hv : v = ""
        · simp [hv] at h
        · simp [hv] at h
          obtain ⟨h1, -⟩ := h
          rw [← h1]
          exact hv

/-- Witness for C10 (amended): an empty `url:` value fails, and the part
about non-empty results applied at a concrete successful read. -/
theorem empty_last_url_missing_url_witness :
    read_archive_file (some ["url:   "]) = Except.error ConfErr.missingUrl ∧
      ("a" : String) ≠ "" :=
  ⟨empty_last_url_missing_url.1 ["url:   "] (by decide) (by decide),
   empty_last_url_missing_url.2 ["url: a"] "a" [] rfl⟩

/-! ### C1 -/

/-- C1: `main` maps run outcomes to exit codes as specified: a missing
configuration file, a missing URL, or a malformed `addtl_args` value —
every reader failure — exits 1; with a successful read, engine success
exits 0, an engine `DownloadError` is caught at the call site and exits 2,
a keyboard interrupt exits 130, and any other uncaught exception exits
99. -/
theorem main_exit_codes :
    (∀ (debug : Bool) (engine : String → Opts → Except PyExc Unit),
        mainRun none debug engine = 1) ∧
    (∀ (file : Option (List String)) (e : ConfErr) (debug : Bool)
        (engine : String → Opts → Except PyExc Unit),
        read_archive_file file = Except.error e → mainRun file debug engine = 1) ∧
    (∀ (file : Option (List String)) (url : String) (extra : List String)
        (debug : Bool) (engine : String → Opts → Except PyExc Unit),
        read_archive_file file = Except.ok (url, extra) →
        ((engine url (build_opts extra debug).1 = Except.ok () →
            mainRun file debug engine = 0) ∧
         (∀ m, engine url (build_opts extra debug).1 =
              Except.error (PyExc.downloadError m) → mainRun file debug engine = 2) ∧
         (engine url (build_opts extra debug).1 = Except.error PyExc.keyboardInterrupt →
            mainRun file debug engine = 130) ∧
         (∀ m, engine url (build_opts extra debug).1 = Except.error (PyExc.otherExc m) →
            mainRun file debug engine = 99))) := by
  refine ⟨fun _ _ => rfl, ?_, ?_⟩
  · intro file e debug engine h
    simp only [mainRun, h]
    cases e <;> rfl
  · intro file url extra debug engine h
    refine ⟨fun he => ?_, fun m he => ?_, fun he => ?_, fun m he => ?_⟩ <;>
      simp [mainRun, h, he, outerHandler]

/-- Witness for C1 at concrete files and engine outcomes: all five exit
codes are realized. -/
theorem main_exit_codes_witness :
    mainRun none false (fun _ _ => Except.ok ()) = 1 ∧
    mainRun (some ["no url here"]) false (fun _ _ => Except.ok ()) = 1 ∧
    mainRun (some ["url: a"]) false (fun _ _ => Except.ok ()) = 0 ∧
    mainRun (some ["url: a"]) false
        (fun _ _ => Except.error (PyExc.downloadError "boom")) = 2 ∧
    mainRun (some ["url: a"]) false (fun _ _ => Except.error PyExc.keyboardInterrupt)
        = 130 ∧
    mainRun (some ["url: a"]) false (fun _ _ => Except.error (PyExc.otherExc "x")) = 99 :=
  ⟨main_exit_codes.1 false (fun _ _ => Except.ok ()),
   main_exit_codes.2.1 (some ["no url here"]) ConfErr.missingUrl false
     (fun _ _ => Except.ok ()) rfl,
   (main_exit_codes.2.2 (some ["url: a"]) "a" [] false (fun _ _ => Except.ok ()) rfl).1 rfl,
   (main_exit_codes.2.2 (some ["url: a"]) "a" [] false
       (fun _ _ => Except.error (PyExc.downloadError "boom")) rfl).2.1 "boom" rfl,
   (main_exit_codes.2.2 (some ["url: a"]) "a" [] false
       (fun _ _ => Except.error PyExc.keyboardInterrupt) rfl).2.2.1 rfl,
   (main_exit_codes.2.2 (some ["url: a"]) "a" [] false
       (fun _ _ => Except.error (PyExc.otherExc "x")) rfl).2.2.2 "x" rfl⟩

/-! ### C8 -/

/-- Splitting non-membership in a cons. -/
theorem not_mem_cons_split {a b : String} {l : List String} (h : a ∉ b :: l) :
    a ≠ b ∧ a ∉ l :=
  ⟨fun he => h (he ▸ List.mem_cons_self b l),
   fun hm => h (List.mem_cons_of_mem _ hm)⟩

/-- Non-membership survives dropping two leading elements. -/
theorem not_mem_cons2 {a b c : String} {l : List String} (h : a ∉ b :: c :: l) :
    a ∉ l :=
  fun hm => h (List.mem_cons_of_mem _ (List.mem_cons_of_mem _ hm))

/-- Assigning the first postprocessor's codec changes nothing besides the
head entry's `preferredcodec`. -/
theorem setCodec_shape (pps : List Postprocessor) (c : String)
    (pps2 : List Postprocessor) (h : setCodec pps c = Except.ok pps2) :
    pps2.map eraseCodec = pps.map eraseCodec ∧ pps2.tail = pps.tail := by
  cases pps with
  | nil => simp [setCodec] at h
  | cons p tl =>
    simp only [setCodec, Except.ok.injEq] at h
    subst h
    simp [eraseCodec]

/-- The fields of the options never written by the toggle step. -/
theorem singleStep_frame (opts : Opts) (arg : String) :
    (singleStep opts arg).reject_title = opts.reject_title ∧
    (singleStep opts arg).postprocessors = opts.postprocessors ∧
    (singleStep opts arg).min_sleep_interval = opts.min_sleep_interval ∧
    (singleStep opts arg).max_sleep_interval = opts.max_sleep_interval := by
  unfold singleStep
  split
  · exact ⟨rfl, rfl, rfl, rfl⟩
  · split <;> exact ⟨rfl, rfl, rfl, rfl⟩

/-- `continuedl` is only written by the `--no-continue` toggle. -/
theorem singleStep_continuedl (opts : Opts) (arg : String)
    (h : arg ≠ "--no-continue") :
    (singleStep opts arg).continuedl = opts.continuedl := by
  unfold singleStep
  rw [if_neg h]
  split <;> rfl

/-- `nooverwrites` is only written by the `--no-overwrites` toggle. -/
theorem singleStep_nooverwrites (opts : Opts) (arg : String)
    (h : arg ≠ "--no-overwrites") :
    (singleStep opts arg).nooverwrites = opts.nooverwrites := by
  unfold singleStep
  by_cases hc : arg = "--no-continue"
  · rw [if_pos hc]
  · rw [if_neg hc, if_neg h]

/-- The option fields that no branch of the argument loop ever writes,
bundled as a tuple (postprocessors up to the head codec). -/
def frameKey (o : Opts) : String × String × String × String × Bool × Bool ×
    Option String × List Postprocessor × List Postprocessor :=
  (o.format, o.download_archive, o.cookiefile, o.outtmpl, o.prefer_ffmpeg, o.verbose,
   o.match_filter, o.postprocessors.map eraseCodec, o.postprocessors.tail)

/-- The argument loop never changes `format`, `download_archive`,
`cookiefile`, `outtmpl`, `prefer_ffmpeg`, `verbose`, `match_filter`, any
postprocessor field other than the head `preferredcodec`, or the tail of
the postprocessor chain. -/
theorem applyLoop_frame (opts : Opts) (title : Option String)
    (warns : List String) (ls : List String) :
    frameKey (applyLoop opts title warns ls).1 = frameKey opts := by
  induction opts, title, warns, ls using applyLoop.induct with
  | case1 opts title warns => rfl
  | case2 opts title warns arg =>
    simp only [applyLoop]
    unfold singleStep
    split
    · rfl
    · split <;> rfl
  | case3 opts title warns arg rest ih =>
    simp only [applyLoop, if_pos]
    rw [ih]
    unfold singleStep
    split
    · rfl
    · split <;> rfl
  | case4 opts title warns nxt rest hn ih =>
    simpa [applyLoop, hn] using ih
  | case5 opts title warns nxt rest hn _ ih =>
    simp only [applyLoop, if_neg (by simpa using hn)]
    exact ih.trans rfl
  | case6 opts title warns nxt rest hn pps hpps _ _ ih =>
    obtain ⟨hm, ht⟩ := setCodec_shape opts.postprocessors nxt pps hpps
    simp only [applyLoop, if_neg (by simpa using hn)]
    rw [hpps]
    exact ih.trans (by simp [frameKey, hm, ht])
  | case7 opts title warns nxt rest hn e he _ _ ih =>
    simp only [applyLoop, if_neg (by simpa using hn)]
    rw [he]
    exact ih.trans rfl
  | case8 opts title warns nxt rest hn n hint _ _ _ ih =>
    simp only [applyLoop, if_neg (by simpa using hn)]
    rw [hint]
    exact ih.trans rfl
  | case9 opts title warns nxt rest hn hint _ _ _ ih =>
    simp only [applyLoop, if_neg (by simpa using hn)]
    rw [hint]
    exact ih.trans rfl
  | case10 opts title warns arg nxt rest hn h1 h2 h3 h4 ih =>
    simp only [applyLoop, if_neg (by simpa using hn), if_neg h1, if_neg h2, if_neg h3,
      if_neg h4]
    rw [ih]
    unfold singleStep
    split
    · rfl
    · split <;> rfl

/-- An option targeted by a whitelisted flag keeps its prior value
whenever that flag does not occur in the remaining argument list. -/
theorem applyLoop_untouched (opts : Opts) (title : Option String)
    (warns : List String) (ls : List String) :
    ("--reject-title" ∉ ls →
        (applyLoop opts title warns ls).1.reject_title = opts.reject_title) ∧
    ("--audio-format" ∉ ls →
        (applyLoop opts title warns ls).1.postprocessors = opts.postprocessors) ∧
    ("--sleep-interval" ∉ ls →
        (applyLoop opts title warns ls).1.min_sleep_interval = opts.min_sleep_interval ∧
        (applyLoop opts title warns ls).1.max_sleep_interval = opts.max_sleep_interval) ∧
    ("--no-continue" ∉ ls →
        (applyLoop opts title warns ls).1.continuedl = opts.continuedl) ∧
    ("--no-overwrites" ∉ ls →
        (applyLoop opts title warns ls).1.nooverwrites = opts.nooverwrites) := by
  induction opts, title, warns, ls using applyLoop.induct with
  | case1 opts title warns =>
    exact ⟨fun _ => rfl, fun _ => rfl, fun _ => ⟨rfl, rfl⟩, fun _ => rfl, fun _ => rfl⟩
  | case2 opts title warns arg =>
    simp only [applyLoop]
    obtain ⟨s1, s2, s3, s4⟩ := singleStep_frame opts arg
    exact ⟨fun _ => s1, fun _ => s2, fun _ => ⟨s3, s4⟩,
      fun h => singleStep_continuedl opts arg (not_mem_cons_split h).1.symm,
      fun h => singleStep_nooverwrites opts arg (not_mem_cons_split h).1.symm⟩
  | case3 opts title warns arg rest ih =>
    simp only [applyLoop, if_pos]
    obtain ⟨i1, i2, i3, i4, i5⟩ := ih
    obtain ⟨s1, s2, s3, s4⟩ := singleStep_frame opts arg
    refine ⟨fun h => ?_, fun h => ?_, fun h => ?_, fun h => ?_, fun h => ?_⟩
    · rw [i1 (not_mem_cons_split h).2, s1]
    · rw [i2 (not_mem_cons_split h).2, s2]
    · obtain ⟨a, b⟩ := i3 (not_mem_cons_split h).2
      exact ⟨a.trans s3, b.trans s4⟩
    · rw [i4 (not_mem_cons_split h).2,
        singleStep_continuedl opts arg (not_mem_cons_split h).1.symm]
    · rw [i5 (not_mem_cons_split h).2,
        singleStep_nooverwrites opts arg (not_mem_cons_split h).1.symm]
  | case4 opts title warns nxt rest hn ih =>
    simp only [applyLoop, if_neg (by simpa using hn)]
    obtain ⟨i1, i2, i3, i4, i5⟩ := ih
    exact ⟨fun h => (i1 (not_mem_cons2 h)).trans rfl,
      fun h => (i2 (not_mem_cons2 h)).trans rfl,
      fun h => ⟨(i3 (not_mem_cons2 h)).1.trans rfl, (i3 (not_mem_cons2 h)).2.trans rfl⟩,
      fun h => (i4 (not_mem_cons2 h)).trans rfl,
      fun h => (i5 (not_mem_cons2 h)).trans rfl⟩
  | case5 opts title warns nxt rest hn _ ih =>
    simp only [applyLoop, if_neg (by simpa using hn)]
    obtain ⟨i1, i2, i3, i4, i5⟩ := ih
    refine ⟨fun h => absurd (List.mem_cons_self _ _) h,
      fun h => (i2 (not_mem_cons2 h)).trans rfl,
      fun h => ⟨(i3 (not_mem_cons2 h)).1.trans rfl, (i3 (not_mem_cons2 h)).2.trans rfl⟩,
      fun h => (i4 (not_mem_cons2 h)).trans rfl,
      fun h => (i5 (not_mem_cons2 h)).trans rfl⟩
  | case6 opts title warns nxt rest hn pps hpps _ _ ih =>
    simp only [applyLoop, if_neg (by simpa using hn)]
    rw [hpps]
    obtain ⟨i1, i2, i3, i4, i5⟩ := ih
    refine ⟨fun h => (i1 (not_mem_cons2 h)).trans rfl,
      fun h => absurd (List.mem_cons_self _ _) h,
      fun h => ⟨(i3 (not_mem_cons2 h)).1.trans rfl, (i3 (not_mem_cons2 h)).2.trans rfl⟩,
      fun h => (i4 (not_mem_cons2 h)).trans rfl,
      fun h => (i5 (not_mem_cons2 h)).trans rfl⟩
  | case7 opts title warns nxt rest hn e he _ _ ih =>
    simp only [applyLoop, if_neg (by simpa using hn)]
    rw [he]
    obtain ⟨i1, i2, i3, i4, i5⟩ := ih
    refine ⟨fun h => (i1 (not_mem_cons_split h).2).trans rfl,
      fun h => absurd (List.mem_cons_self _ _) h,
      fun h => ⟨(i3 (not_mem_cons_split h).2).1.trans rfl,
        (i3 (not_mem_cons_split h).2).2.trans rfl⟩,
      fun h => (i4 (not_mem_cons_split h).2).trans rfl,
      fun h => (i5 (not_mem_cons_split h).2).trans rfl⟩
  | case8 opts title warns nxt rest hn n hint _ _ _ ih =>
    simp only [applyLoop, if_neg (by simpa using hn)]
    rw [hint]
    obtain ⟨i1, i2, i3, i4, i5⟩ := ih
    refine ⟨fun h => (i1 (not_mem_cons2 h)).trans rfl,
      fun h => (i2 (not_mem_cons2 h)).trans rfl,
      fun h => absurd (List.mem_cons_self _ _) h,
      fun h => (i4 (not_mem_cons2 h)).trans rfl,
      fun h => (i5 (not_mem_cons2 h)).trans rfl⟩
  | case9 opts title warns nxt rest hn hint _ _ _ ih =>
    simp only [applyLoop, if_neg (by simpa using hn)]
    rw [hint]
    obtain ⟨i1, i2, i3, i4, i5⟩ := ih
    refine ⟨fun h => (i1 (not_mem_cons_split h).2).trans rfl,
      fun h => (i2 (not_mem_cons_split h).2).trans rfl,
      fun h => absurd (List.mem_cons_self _ _) h,
      fun h => (i4 (not_mem_cons_split h).2).trans rfl,
      fun h => (i5 (not_mem_cons_split h).2).trans rfl⟩
  | case10 opts title warns arg nxt rest hn h1 h2 h3 h4 ih =>
    simp only [applyLoop, if_neg (by simpa using hn), if_neg h1, if_neg h2, if_neg h3,
      if_neg h4]
    obtain ⟨i1, i2, i3, i4, i5⟩ := ih
    obtain ⟨s1, s2, s3, s4⟩ := singleStep_frame opts arg
    refine ⟨fun h => ?_, fun h => ?_, fun h => ?_, fun h => ?_, fun h => ?_⟩
    · rw [i1 (not_mem_cons_split h).2, s1]
    · rw [i2 (not_mem_cons_split h).2, s2]
    · obtain ⟨a, b⟩ := i3 (not_mem_cons_split h).2
      exact ⟨a.trans s3, b.trans s4⟩
    · rw [i4 (not_mem_cons_split h).2,
        singleStep_continuedl opts arg (not_mem_cons_split h).1.symm]
    · rw [i5 (not_mem_cons_split h).2,
        singleStep_nooverwrites opts arg (not_mem_cons_split h).1.symm]

/-- Unfolding of `apply_manual_args` through the loop (product eta). -/
theorem apply_manual_args_fst (opts : Opts) (args : List String) :
    (apply_manual_args opts args).1 =
      { (applyLoop opts none [] args).1 with
        match_filter := (applyLoop opts none [] args).2.1 } := rfl

/-- C8: applying the manual arguments to the default mapping leaves every
default entry unchanged except those targeted by flags actually present in
the list — `reject_title`, the first postprocessor's `preferredcodec`,
`min_sleep_interval`, `max_sleep_interval`, `continuedl`, `nooverwrites` —
and the `match_filter` entry, which is always rebuilt; every
non-overridden default option keeps its default value. -/
theorem apply_manual_args_frame_spec (args : List String) :
    (apply_manual_args default_opts args).1.format = default_opts.format ∧
    (apply_manual_args default_opts args).1.download_archive =
      default_opts.download_archive ∧
    (apply_manual_args default_opts args).1.cookiefile = default_opts.cookiefile ∧
    (apply_manual_args default_opts args).1.outtmpl = default_opts.outtmpl ∧
    (apply_manual_args default_opts args).1.prefer_ffmpeg = default_opts.prefer_ffmpeg ∧
    (apply_manual_args default_opts args).1.verbose = default_opts.verbose ∧
    (apply_manual_args default_opts args).1.postprocessors.map eraseCodec =
      default_opts.postprocessors.map eraseCodec ∧
    (apply_manual_args default_opts args).1.postprocessors.tail =
      default_opts.postprocessors.tail ∧
    ("--reject-title" ∉ args →
        (apply_manual_args default_opts args).1.reject_title =
          default_opts.reject_title) ∧
    ("--audio-format" ∉ args →
        (apply_manual_args default_opts args).1.postprocessors =
          default_opts.postprocessors) ∧
    ("--sleep-interval" ∉ args →
        (apply_manual_args default_opts args).1.min_sleep_interval =
            default_opts.min_sleep_interval ∧
          (apply_manual_args default_opts args).1.max_sleep_interval =
            default_opts.max_sleep_interval) ∧
    ("--no-continue" ∉ args →
        (apply_manual_args default_opts args).1.continuedl = default_opts.continuedl) ∧
    ("--no-overwrites" ∉ args →
        (apply_manual_args default_opts args).1.nooverwrites =
          default_opts.nooverwrites) := by
  have hf := applyLoop_frame default_opts none [] args
  simp only [frameKey, Prod.mk.injEq] at hf
  obtain ⟨f1, f2, f3, f4, f5, f6, _, f8, f9⟩ := hf
  obtain ⟨u1, u2, u3, u4, u5⟩ := applyLoop_untouched default_opts none [] args
  rw [apply_manual_args_fst]
  exact ⟨f1, f2, f3, f4, f5, f6, f8, f9, u1, u2, u3, u4, u5⟩

/-- Witness for C8 at `["--audio-format", "mp3"]`: untouched defaults
survive, and the options not targeted by any present flag keep their
default values. -/
theorem apply_manual_args_frame_spec_witness :
    (apply_manual_args default_opts ["--audio-format", "mp3"]).1.format =
        default_opts.format ∧
    (apply_manual_args default_opts ["--audio-format", "mp3"]).1.min_sleep_interval =
        default_opts.min_sleep_interval ∧
    (apply_manual_args default_opts ["--audio-format", "mp3"]).1.nooverwrites =
        default_opts.nooverwrites ∧
    (apply_manual_args default_opts ["--audio-format", "mp3"]).1.continuedl =
        default_opts.continuedl := by
  obtain ⟨h1, _, _, _, _, _, _, _, _, _, hs, hc, ho⟩ :=
    apply_manual_args_frame_spec ["--audio-format", "mp3"]
  exact ⟨h1, (hs (by decide)).1, ho (by decide), hc (by decide)⟩
